import Mathlib

/-!
# Verification of the SimpleCmd command-safety pipeline

A shallow embedding of the safety-classification and approval-gated
execution pipeline of the SimpleCmd repository
(`config.py`, `command_executor.py`, `ai_agent.py`, `main.py`).

Commands are modelled as `List Char`.  Python's `str.lower` / `str.strip`
and the `re` module's `\s` class are modelled with ASCII semantics
(the configured keywords and patterns are all ASCII).  Console rendering
(`rich` panels, status lines) has no effect on the data flow and is not
modelled.  The interactive prompt and the subprocess are the two external
effects; both are modelled by passing their outcome in as an explicit
argument, and Python exception propagation is modelled by an explicit
result type `PyResult`.
-/

namespace SimpleCmd

/-- ASCII whitespace recognised by Python's `str.strip` and `re`'s `\s`
(space, tab, newline, carriage return, vertical tab, form feed). -/
def pyIsSpace (c : Char) : Bool :=
  c == ' ' || c == '\t' || c == '\n' || c == '\r' || c == '\x0b' || c == '\x0c'

/-- ASCII lower-casing of one character, as `str.lower` acts on ASCII. -/
def pyLowerChar (c : Char) : Char :=
  if 'A' ≤ c && c ≤ 'Z' then Char.ofNat (c.toNat + 32) else c

/-- `str.lower`: lower-case every character. -/
def pyLower (s : List Char) : List Char := s.map pyLowerChar

/-- `str.strip`: drop leading and trailing whitespace. -/
def pyStrip (s : List Char) : List Char :=
  ((s.dropWhile pyIsSpace).reverse.dropWhile pyIsSpace).reverse

/-- `config.py` lines 8–23: `SENSITIVE_COMMAND_KEYWORDS`.  The Python value
is a `set`; it is modelled as a list (only membership / `any` over it is
ever used, so the order is irrelevant). -/
def SENSITIVE_COMMAND_KEYWORDS : List (List Char) :=
  [ "rm".toList, "delete".toList, "remove".toList,
    "mv".toList, "move".toList,
    "cp".toList, "copy".toList,
    "chmod".toList, "chown".toList,
    "sudo".toList, "su".toList,
    "dd".toList,
    "format".toList, "mkfs".toList,
    "shutdown".toList, "reboot".toList, "halt".toList,
    "kill".toList, "killall".toList,
    "curl".toList, "wget".toList,
    "git push --force".toList,
    "drop".toList, "truncate".toList,
    ">".toList, ">>".toList,
    "uninstall".toList, "purge".toList ]

/-- Regex continuation `\s*` followed by whatever `k` accepts: some
(possibly empty) run of whitespace is consumed, then `k` must accept the
rest.  All backtracking choices are tried. -/
def wsStarThen (k : List Char → Bool) : List Char → Bool
  | [] => k []
  | c :: t => k (c :: t) || (pyIsSpace c && wsStarThen k t)

/-- Regex continuation `\s+` followed by whatever `k` accepts. -/
def wsPlusThen (k : List Char → Bool) (s : List Char) : Bool :=
  match s with
  | [] => false
  | c :: t => pyIsSpace c && wsStarThen k t

/-- A literal regex atom followed by continuation `k`. -/
def litThen (lit : List Char) (k : List Char → Bool) (s : List Char) : Bool :=
  lit.isPrefixOf s && k (s.drop lit.length)

/-- Regex tail `.*\*`: a run of non-newline characters (`.` does not match
`\n` in Python's default mode) followed by a literal `*`; i.e. some `*`
occurs before any newline. -/
def dotStarLitStar : List Char → Bool
  | [] => false
  | c :: t => c == '*' || (c != '\n' && dotStarLitStar t)

/-- `re.search` semantics: the matcher `m` may start at any position
(including the position just past the end of the string). -/
def reSearch (m : List Char → Bool) : List Char → Bool
  | [] => m []
  | c :: t => m (c :: t) || reSearch m t

/-- `config.py` line 27: `re.search(r'rm\s+-rf', s)`. -/
def pat_rm_rf : List Char → Bool :=
  reSearch (litThen "rm".toList (wsPlusThen (fun s => "-rf".toList.isPrefixOf s)))

/-- `config.py` line 28: `re.search(r'rm\s+.*\*', s)`. -/
def pat_rm_wildcard : List Char → Bool :=
  reSearch (litThen "rm".toList (wsPlusThen dotStarLitStar))

/-- `config.py` line 29: `re.search(r'>\s+/', s)`. -/
def pat_redirect_root : List Char → Bool :=
  reSearch (litThen ">".toList (wsPlusThen (fun s => "/".toList.isPrefixOf s)))

/-- `config.py` line 30: `re.search(r'sudo\s+rm', s)`. -/
def pat_sudo_rm : List Char → Bool :=
  reSearch (litThen "sudo".toList (wsPlusThen (fun s => "rm".toList.isPrefixOf s)))

/-- `config.py` lines 26–31: `DANGEROUS_PATTERNS`, as executable search
functions (one per regex, in source order). -/
def DANGEROUS_PATTERNS : List (List Char → Bool) :=
  [pat_rm_rf, pat_rm_wildcard, pat_redirect_root, pat_sudo_rm]

/-- `command_executor.py` lines 21–43: `CommandExecutor.is_sensitive_command`.
Lower-cases and strips the command, then tests keyword substring
containment and the dangerous regex patterns. -/
def is_sensitive_command (command : List Char) : Bool :=
  let command_lower := pyStrip (pyLower command)
  SENSITIVE_COMMAND_KEYWORDS.any (fun keyword => decide (keyword <:+: command_lower))
  || DANGEROUS_PATTERNS.any (fun pattern => pattern command_lower)


/-- Outcome of one interaction with a yes/no confirmation prompt.
`no` also covers empty input (both prompts default to "no" on it);
`interrupt` is `KeyboardInterrupt` (Ctrl-C) raised while waiting,
`eof` is `EOFError` (end of input). -/
inductive ConfirmAnswer
  | yes
  | no
  | interrupt
  | eof
deriving DecidableEq

/-- A Python exception escaping a modelled function. -/
inductive PyExc
  | keyboardInterrupt
  | eofError
deriving DecidableEq

/-- Result of running a Python code path: either a value, or an
uncaught exception propagating out of it. -/
inductive PyResult (α : Type)
  | ok (a : α)
  | raised (e : PyExc)
deriving DecidableEq

/-- Behaviour of the environment for one `subprocess.run` call:
normal completion with an exit code and captured output, a
`subprocess.TimeoutExpired`, or any other raised `Exception`
(carrying its `str(e)` text). -/
inductive ExecOutcome
  | completed (returncode : Int) (stdout stderr : List Char)
  | timedOut
  | raisedExc (msg : List Char)
deriving DecidableEq

/-- The `(success flag, stdout, stderr)` triple returned by
`CommandExecutor.execute_command`. -/
abbrev ExecResult := Bool × List Char × List Char

/-- `config.py` line 51: `COMMAND_TIMEOUT = 30`. -/
def COMMAND_TIMEOUT : Nat := 30

/-- `command_executor.py` line 129: the timeout failure text
`f"Command execution timeout (exceeded {COMMAND_TIMEOUT} seconds)"`. -/
def timeoutMessage : List Char :=
  "Command execution timeout (exceeded ".toList
    ++ (toString COMMAND_TIMEOUT).toList ++ " seconds)".toList

/-- `command_executor.py` line 133: the generic failure text
`f"Error occurred while executing command: {str(e)}"`. -/
def execErrorMessage (e : List Char) : List Char :=
  "Error occurred while executing command: ".toList ++ e

/-- `command_executor.py` line 99: the fixed stderr text returned on a
user denial. -/
def USER_CANCELLED_MSG : List Char := "User cancelled command execution".toList

/-- The result triple produced by the `try`/`except` block of
`command_executor.py` lines 104–135 for a given subprocess outcome.
`KeyboardInterrupt` is a `BaseException` in Python 3 and would not be
caught by `except Exception`, but a signal arriving mid-`subprocess.run`
is outside this embedding; `raisedExc` covers exactly the `Exception`s
the handler sees. -/
def outcomeTriple : ExecOutcome → ExecResult
  | .completed rc stdout stderr => (rc == 0, stdout, stderr)
  | .timedOut => (false, [], timeoutMessage)
  | .raisedExc msg => (false, [], execErrorMessage msg)

/-- `command_executor.py` lines 101–135: append the command to
`self.command_history`, then run it under `try`/`except`.  Returns the
new history together with the result triple. -/
def runSubprocess (command : List Char) (out : ExecOutcome)
    (hist : List (List Char)) : List (List Char) × ExecResult :=
  (hist ++ [command], outcomeTriple out)

/-- `rich.prompt.Confirm.ask(..., default=False)` as called at
`command_executor.py` line 93: yes/no answers are returned (empty input
yields the default `False`, folded into `no`); an interrupt or EOF while
waiting propagates as an exception, since `rich` catches neither and the
call site has no handler. -/
def confirmAsk : ConfirmAnswer → PyResult Bool
  | .yes => .ok true
  | .no => .ok false
  | .interrupt => .raised .keyboardInterrupt
  | .eof => .raised .eofError

/-- `command_executor.py` lines 71–135: `CommandExecutor.execute_command`.
The prompt answer and the subprocess outcome are passed in explicitly;
`hist` is the incoming `self.command_history`.  Returns the updated
history and the result triple, or the exception that escaped.
Console display (`display_command`, status prints) is effect-free on the
data flow and is omitted. -/
def execute_command (command : List Char) (auto_approve : Bool)
    (ans : ConfirmAnswer) (out : ExecOutcome) (hist : List (List Char)) :
    PyResult (List (List Char) × ExecResult) :=
  if auto_approve then
    .ok (runSubprocess command out hist)
  else if is_sensitive_command command then
    match confirmAsk ans with
    | .raised e => .raised e
    | .ok true => .ok (runSubprocess command out hist)
    | .ok false => .ok (hist, (false, [], USER_CANCELLED_MSG))
  else
    .ok (runSubprocess command out hist)

/-- `command_executor.py` lines 137–139: `get_command_history` returns
`self.command_history.copy()` — a fresh list with the same elements,
which under value semantics is the history's current value. -/
def get_command_history (command_history : List (List Char)) : List (List Char) :=
  command_history

/-- `main.py` lines 46–62: `get_confirmation` wraps
`prompt_toolkit.shortcuts.confirm` in `try/except (KeyboardInterrupt,
EOFError)` and returns `False` on either, so it never raises. -/
def get_confirmation (ans : ConfirmAnswer) : Bool :=
  match confirmAsk ans with
  | .ok b => b
  | .raised _ => false

/-- `ai_agent.py` line 184: the marker tested with
`ai_response.startswith("NEEDS_APPROVAL:")` (no trailing space). -/
def NEEDS_APPROVAL_MARKER : List Char := "NEEDS_APPROVAL:".toList

/-- Helper for `removeMarker`: scan the string; while `skip > 0` the
current character belongs to a matched marker occurrence and is dropped;
at `skip = 0` a fresh marker match starts a new skip of the marker's
length. -/
def removeMarkerAux : Nat → List Char → List Char
  | _, [] => []
  | Nat.succ k, _ :: t => removeMarkerAux k t
  | 0, c :: t =>
    if NEEDS_APPROVAL_MARKER.isPrefixOf (c :: t) then
      removeMarkerAux (NEEDS_APPROVAL_MARKER.length - 1) t
    else
      c :: removeMarkerAux 0 t

/-- `str.replace("NEEDS_APPROVAL:", "")`: remove every left-to-right
non-overlapping occurrence of the marker (Python's `replace` scans once
and does not rescan text exposed by a removal). -/
def removeMarker (s : List Char) : List Char := removeMarkerAux 0 s

/-- `ai_agent.py` lines 182–186: after parsing the upstream response,
`chat` sets `needs_approval` from the `startswith` test and, only when it
fired, removes the marker and strips the text.  Returns
`(command text handed back to main, needs_approval)`. -/
def processAIResponse (r : List Char) : List Char × Bool :=
  if NEEDS_APPROVAL_MARKER.isPrefixOf r then
    (pyStrip (removeMarker r), true)
  else
    (r, false)

/-- `main.py` lines 184–200: processing of one translated command
(`ai_response` not a `QUESTION:`/`UNKNOWN`/`Error:` reply).  When
`needs_approval` is set, `get_confirmation` gates the call; in both
branches `execute_command` is invoked with `auto_approve=True`.
Returns the (possibly updated) history and `some` result triple, or
`none` when the hinted prompt was declined and nothing ran. -/
def processOneCommand (ai_response : List Char) (needs_approval : Bool)
    (hintAns localAns : ConfirmAnswer) (out : ExecOutcome)
    (hist : List (List Char)) :
    PyResult (List (List Char) × Option ExecResult) :=
  if needs_approval then
    if get_confirmation hintAns then
      match execute_command ai_response true localAns out hist with
      | .ok (h, r) => .ok (h, some r)
      | .raised e => .raised e
    else
      .ok (hist, none)
  else
    match execute_command ai_response true localAns out hist with
    | .ok (h, r) => .ok (h, some r)
    | .raised e => .raised e

/-- The full path from a raw upstream translator response to one
execution attempt: `AIAgent.chat`'s marker handling followed by
`main`'s dispatch. -/
def pipelineStep (rawResponse : List Char) (hintAns localAns : ConfirmAnswer)
    (out : ExecOutcome) (hist : List (List Char)) :
    PyResult (List (List Char) × Option ExecResult) :=
  let (ai_response, needs_approval) := processAIResponse rawResponse
  processOneCommand ai_response needs_approval hintAns localAns out hist

/-- `ai_agent.py` lines 34, 212–214 and `command_executor.py` line 19:
the two mutable state components of one session — the AI agent's
conversation history (role/content pairs) and the executor's command
history. -/
structure AppState where
  conversation_history : List (List Char × List Char)
  command_history : List (List Char)
deriving DecidableEq

/-- `ai_agent.py` lines 212–214: `AIAgent.clear_history` resets the
conversation history to `[]`. -/
def clear_history (conversation_history : List (List Char × List Char)) :
    List (List Char × List Char) :=
  []

/-- `main.py` lines 158–160: the `clear` command calls
`ai_agent.clear_history()` and touches nothing else. -/
def mainClearBranch (s : AppState) : AppState :=
  { s with conversation_history := clear_history s.conversation_history }

/-- A sequence of auto-approved executions (`auto_approve=True`), each
with its own subprocess outcome, threaded through the executor's
history. -/
def runApproved : List (List Char × ExecOutcome) → List (List Char) → List (List Char)
  | [], hist => hist
  | (c, o) :: rest, hist => runApproved rest (runSubprocess c o hist).1


/-! ## Sanity checks on the embedding -/

example : is_sensitive_command "ls -la".toList = false := by decide
example : is_sensitive_command "rm -rf /tmp/x".toList = true := by decide
example : is_sensitive_command "echo hello".toList = false := by decide
example : is_sensitive_command "echo performance".toList = true := by decide
example : is_sensitive_command "  RM x  ".toList = true := by decide
example : pat_rm_rf "rm   -rf".toList = true := by decide
example : pat_rm_rf "rm-rf".toList = false := by decide
example : pat_rm_wildcard ("rm \n a*b".toList) = true := by decide
example : pat_rm_wildcard ("rm x\n*".toList) = false := by decide
example : pat_redirect_root "cat x > /etc/passwd".toList = true := by decide
example : execute_command "rm x".toList false .no .timedOut [] =
    .ok ([], (false, [], USER_CANCELLED_MSG)) := by decide
example : execute_command "rm x".toList false .interrupt .timedOut [] =
    .raised .keyboardInterrupt := by decide
example : execute_command "ls".toList false .interrupt (.completed 0 "ok".toList []) [] =
    .ok (["ls".toList], (true, "ok".toList, [])) := by decide
example : processAIResponse "NEEDS_APPROVAL: rm x".toList = ("rm x".toList, true) := by decide
example : processAIResponse "ls -la".toList = ("ls -la".toList, false) := by decide

/-! ## Helper lemmas: substring search is unaffected by `strip`

Every configured keyword, and every string a dangerous pattern can match,
begins and ends with a non-whitespace character, so containment in the
stripped command coincides with containment in the unstripped one. -/

/-- The stripped string is an infix of the original. -/
theorem pyStrip_within (s : List Char) : pyStrip s <:+: s := by
  have h1 : s.dropWhile pyIsSpace <:+ s := List.dropWhile_suffix _
  have h2 : pyStrip s <+: s.dropWhile pyIsSpace := by
    have := List.dropWhile_suffix (l := (s.dropWhile pyIsSpace).reverse) pyIsSpace
    unfold pyStrip
    exact List.reverse_suffix.mp (by simpa using this)
  exact (h2.isInfix).trans h1.isInfix

/-- A nonempty list whose head survives `p` remains an infix after
`dropWhile p`. -/
theorem infix_dropWhile_of_head {p : Char → Bool} {c : Char} {t s : List Char}
    (hc : p c = false) (h : (c :: t) <:+: s) :
    (c :: t) <:+: s.dropWhile p := by
  obtain ⟨a, b, hs⟩ := h
  subst hs
  have hassoc : a ++ (c :: t) ++ b = a ++ ((c :: t) ++ b) := by simp
  rw [hassoc, List.dropWhile_append]
  by_cases he : (List.dropWhile p a).isEmpty = true
  · rw [if_pos he, List.cons_append, List.dropWhile_cons, hc]
    simp only [Bool.false_eq_true, if_false]
    exact ⟨[], b, by simp⟩
  · rw [if_neg he]
    exact ⟨List.dropWhile p a, b, by simp⟩

/-- A nonempty list with non-whitespace first and last characters is an
infix of `pyStrip s` exactly when it is an infix of `s`. -/
theorem infix_pyStrip_iff {k s : List Char} (hne : k ≠ [])
    (hh : pyIsSpace (k.headD ' ') = false)
    (hl : pyIsSpace (k.reverse.headD ' ') = false) :
    k <:+: pyStrip s ↔ k <:+: s := by
  constructor
  · exact fun h => h.trans (pyStrip_within s)
  · intro h
    obtain ⟨c, t, hk⟩ := List.exists_cons_of_ne_nil hne
    obtain ⟨c', t', hk'⟩ := List.exists_cons_of_ne_nil
      (fun hnil => hne (by simpa using congrArg List.reverse hnil) : k.reverse ≠ [])
    have hc : pyIsSpace c = false := by rw [hk] at hh; exact hh
    have hc' : pyIsSpace c' = false := by rw [hk'] at hl; exact hl
    have h1 : k <:+: s.dropWhile pyIsSpace := by
      rw [hk] at h ⊢; exact infix_dropWhile_of_head hc h
    have h2 : k.reverse <:+: (s.dropWhile pyIsSpace).reverse :=
      List.reverse_infix.mpr h1
    have h3 : k.reverse <:+: ((s.dropWhile pyIsSpace).reverse).dropWhile pyIsSpace := by
      rw [hk'] at h2 ⊢; exact infix_dropWhile_of_head hc' h2
    have h4 : k <:+: pyStrip s := by
      have := List.reverse_infix.mp
        (show k.reverse <:+: (pyStrip s).reverse by
          unfold pyStrip; rw [List.reverse_reverse]; exact h3)
      exact this
    exact h4

/-- Every configured keyword is nonempty and starts and ends with a
non-whitespace character. -/
theorem keyword_shape :
    ∀ k ∈ SENSITIVE_COMMAND_KEYWORDS,
      k ≠ [] ∧ pyIsSpace (k.headD ' ') = false ∧
        pyIsSpace (k.reverse.headD ' ') = false := by decide

/-- A successful `reSearch` means the matcher accepted some suffix. -/
theorem reSearch_eq_true_iff {m : List Char → Bool} {s : List Char} :
    reSearch m s = true ↔ ∃ u, u <:+ s ∧ m u = true := by
  induction s with
  | nil =>
    simp only [reSearch]
    exact ⟨fun h => ⟨[], List.suffix_refl _, h⟩,
      fun ⟨u, hu, hm⟩ => by rwa [List.suffix_nil.mp hu] at hm⟩
  | cons c t ih =>
    simp only [reSearch, Bool.or_eq_true, ih]
    constructor
    · rintro (h | ⟨u, hu, hm⟩)
      · exact ⟨c :: t, List.suffix_refl _, h⟩
      · exact ⟨u, hu.trans (List.suffix_cons c t), hm⟩
    · rintro ⟨u, hu, hm⟩
      rcases List.suffix_cons_iff.mp hu with h | h
      · subst h; exact Or.inl hm
      · exact Or.inr ⟨u, h, hm⟩

/-- `litThen` only accepts strings starting with its literal. -/
theorem litThen_startsWith {lit : List Char} {k : List Char → Bool} {s : List Char}
    (h : litThen lit k s = true) : lit <+: s := by
  unfold litThen at h
  rw [Bool.and_eq_true] at h
  exact List.isPrefixOf_iff_prefix.mp h.1

/-- Any string a dangerous pattern matches contains a configured keyword:
the `rm` patterns embed the keyword `rm`, the redirect pattern the
keyword `>`, and the sudo pattern the keyword `sudo`. -/
theorem pattern_imp_keyword :
    ∀ p ∈ DANGEROUS_PATTERNS, ∀ y : List Char, p y = true →
      ∃ k ∈ SENSITIVE_COMMAND_KEYWORDS, k <:+: y := by
  have grab : ∀ (lit : List Char) (k : List Char → Bool) (y : List Char),
      reSearch (litThen lit k) y = true → lit <:+: y := by
    intro lit k y h
    obtain ⟨u, hu, hm⟩ := reSearch_eq_true_iff.mp h
    exact ((litThen_startsWith hm).isInfix).trans hu.isInfix
  intro p hp y hy
  simp only [DANGEROUS_PATTERNS, List.mem_cons, List.not_mem_nil, or_false] at hp
  rcases hp with rfl | rfl | rfl | rfl
  · exact ⟨"rm".toList, by decide, grab _ _ _ hy⟩
  · exact ⟨"rm".toList, by decide, grab _ _ _ hy⟩
  · exact ⟨">".toList, by decide, grab _ _ _ hy⟩
  · exact ⟨"sudo".toList, by decide, grab _ _ _ hy⟩

/-- The keyword test gives the same verdict on the stripped and on the
unstripped string. -/
theorem keyword_hit_strip_iff (y : List Char) :
    (∃ k ∈ SENSITIVE_COMMAND_KEYWORDS, k <:+: pyStrip y) ↔
      (∃ k ∈ SENSITIVE_COMMAND_KEYWORDS, k <:+: y) := by
  constructor
  · rintro ⟨k, hk, h⟩
    exact ⟨k, hk, h.trans (pyStrip_within y)⟩
  · rintro ⟨k, hk, h⟩
    obtain ⟨hne, hh, hl⟩ := keyword_shape k hk
    exact ⟨k, hk, (infix_pyStrip_iff hne hh hl).mpr h⟩

/-- Whenever the gate is passed — `auto_approve` set, or the command not
locally sensitive, or the user answering yes — `execute_command` appends
the command to the history once and returns the triple determined by the
subprocess outcome. -/
theorem execute_command_approved (cmd : List Char) (aa : Bool)
    (ans : ConfirmAnswer) (out : ExecOutcome) (hist : List (List Char))
    (happr : aa = true ∨ is_sensitive_command cmd = false ∨ ans = ConfirmAnswer.yes) :
    execute_command cmd aa ans out hist = .ok (hist ++ [cmd], outcomeTriple out) := by
  rcases happr with rfl | hs | rfl
  · simp [execute_command, runSubprocess]
  · cases aa <;> simp [execute_command, hs, runSubprocess]
  · cases aa <;> by_cases hs : is_sensitive_command cmd = true <;>
      simp [execute_command, hs, confirmAsk, runSubprocess]

/-- Denial at the local prompt: a locally sensitive command with answer
"no" is not run and not recorded. -/
theorem execute_command_denied (cmd : List Char) (out : ExecOutcome)
    (hist : List (List Char)) (hs : is_sensitive_command cmd = true) :
    execute_command cmd false .no out hist =
      .ok (hist, (false, [], USER_CANCELLED_MSG)) := by
  simp [execute_command, hs, confirmAsk]

/-- Auto-approved executions append their commands to the history in
invocation order. -/
theorem runApproved_history (entries : List (List Char × ExecOutcome))
    (hist : List (List Char)) :
    runApproved entries hist = hist ++ entries.map Prod.fst := by
  induction entries generalizing hist with
  | nil => simp [runApproved]
  | cons e rest ih =>
    cases e with
    | mk c o => simp [runApproved, runSubprocess, ih]

/-! ## Claim theorems -/

/-- C1: `is_sensitive_command` classifies a command as sensitive exactly
when its lower-cased text contains a configured keyword as a substring or
matches a configured dangerous regex pattern; otherwise it is safe.  (The
source also strips surrounding whitespace, which provably does not change
the verdict.) -/
theorem c1_is_sensitive_iff_keyword_or_pattern (c : List Char) :
    is_sensitive_command c = true ↔
      ((∃ k ∈ SENSITIVE_COMMAND_KEYWORDS, k <:+: pyLower c) ∨
       (∃ p ∈ DANGEROUS_PATTERNS, p (pyLower c) = true)) := by
  unfold is_sensitive_command
  simp only [Bool.or_eq_true, List.any_eq_true, decide_eq_true_eq]
  constructor
  · rintro (⟨k, hk, h⟩ | ⟨p, hp, h⟩)
    · exact Or.inl ((keyword_hit_strip_iff (pyLower c)).mp ⟨k, hk, h⟩)
    · obtain ⟨k, hk, hinf⟩ := pattern_imp_keyword p hp _ h
      exact Or.inl ((keyword_hit_strip_iff (pyLower c)).mp ⟨k, hk, hinf⟩)
  · rintro (⟨k, hk, h⟩ | ⟨p, hp, h⟩)
    · exact Or.inl ((keyword_hit_strip_iff (pyLower c)).mpr ⟨k, hk, h⟩)
    · obtain ⟨k, hk, hinf⟩ := pattern_imp_keyword p hp _ h
      exact Or.inl ((keyword_hit_strip_iff (pyLower c)).mpr ⟨k, hk, hinf⟩)

/-- C9: keyword matching is plain substring matching, so the harmless
command `echo performance` is classified sensitive — the keyword `rm`
occurs inside the word `performance`. -/
theorem c9_substring_false_positive :
    is_sensitive_command "echo performance".toList = true ∧
      "rm".toList <:+: "performance".toList := by decide

/-- C2 counterexample: the translated command `rm -rf /` is locally
SENSITIVE, yet with an upstream "safe" judgment (`needs_approval =
false`) the pipeline executes it and records it even though the user
would answer "no" to any prompt — the local classifier is bypassed on the
safe-hint path, refuting the claim that it is never bypassed there. -/
theorem c2_counterexample_safe_hint_bypasses_classifier :
    is_sensitive_command "rm -rf /".toList = true ∧
    processOneCommand "rm -rf /".toList false .no .no (.completed 0 [] []) [] =
      .ok (["rm -rf /".toList], some (true, [], [])) := by decide

/-- C2 amended: the pipeline executes every translated command with
`auto_approve=True`, so the local classifier is bypassed on the
safe-hint path as well; the classifier runs only when `execute_command`
is called with `auto_approve=False`, and then a command it labels
SENSITIVE is executed (i.e. recorded in the history) only on an explicit
"yes". -/
theorem c2_amended_bypass_in_pipeline (resp : List Char)
    (hintAns localAns : ConfirmAnswer) (out : ExecOutcome)
    (hist : List (List Char)) :
    processOneCommand resp false hintAns localAns out hist =
      .ok (hist ++ [resp], some (outcomeTriple out)) ∧
    (∀ cmd ans h r, is_sensitive_command cmd = true →
      ans ≠ ConfirmAnswer.yes →
      execute_command cmd false ans out hist = .ok (h, r) →
      h = hist ∧ r = (false, [], USER_CANCELLED_MSG)) := by
  constructor
  · simp [processOneCommand, execute_command, runSubprocess]
  · intro cmd ans h r hs hans heq
    cases ans with
    | yes => exact absurd rfl hans
    | no =>
      rw [execute_command_denied cmd out hist hs] at heq
      have h2 : (hist, ((false, [], USER_CANCELLED_MSG) : ExecResult)) = (h, r) := by
        injection heq
      exact ⟨(congrArg Prod.fst h2).symm, (congrArg Prod.snd h2).symm⟩
    | interrupt => simp [execute_command, hs, confirmAsk] at heq
    | eof => simp [execute_command, hs, confirmAsk] at heq

/-- C2 amended, witness: with a safe hint the sensitive command
`rm -rf /` runs unprompted; with `auto_approve=False` and answer "no" it
is denied with the history untouched. -/
theorem c2_amended_witness :
    processOneCommand "rm -rf /".toList false .no .no (.completed 0 [] []) [] =
      .ok (["rm -rf /".toList], some (outcomeTriple (.completed 0 [] []))) ∧
    ([] : List (List Char)) = [] ∧
    ((false, [], USER_CANCELLED_MSG) : ExecResult) = (false, [], USER_CANCELLED_MSG) :=
  ⟨(c2_amended_bypass_in_pipeline "rm -rf /".toList .no .no (.completed 0 [] []) []).1,
   ((c2_amended_bypass_in_pipeline "rm -rf /".toList .no .no (.completed 0 [] []) []).2
      "rm -rf /".toList .no [] (false, [], USER_CANCELLED_MSG) (by decide)
      (by decide) (by decide)).1,
   ((c2_amended_bypass_in_pipeline "rm -rf /".toList .no .no (.completed 0 [] []) []).2
      "rm -rf /".toList .no [] (false, [], USER_CANCELLED_MSG) (by decide)
      (by decide) (by decide)).2⟩

/-- C3: a USER_DENIED decision leaves the history unchanged and executes
nothing — at the hinted gate (`get_confirmation` false) the pipeline
short-circuits with the history intact, and at the local gate the denial
triple is returned with the history intact; an approved command
(`auto_approve`, locally safe, or answered yes) is appended to the
history exactly once, whatever the subprocess outcome. -/
theorem c3_denied_vs_approved_history (resp cmd : List Char)
    (hintAns localAns ans : ConfirmAnswer) (out : ExecOutcome)
    (hist : List (List Char)) (aa : Bool) :
    (get_confirmation hintAns = false →
      processOneCommand resp true hintAns localAns out hist = .ok (hist, none)) ∧
    (is_sensitive_command cmd = true →
      execute_command cmd false .no out hist =
        .ok (hist, (false, [], USER_CANCELLED_MSG))) ∧
    ((aa = true ∨ is_sensitive_command cmd = false ∨ ans = ConfirmAnswer.yes) →
      execute_command cmd aa ans out hist = .ok (hist ++ [cmd], outcomeTriple out)) :=
  ⟨fun h => by simp [processOneCommand, h],
   fun hs => execute_command_denied cmd out hist hs,
   fun happr => execute_command_approved cmd aa ans out hist happr⟩

/-- C3 witness: a hinted denial returns the empty history with no result;
a local denial of `rm x` returns the denial triple; the approved `rm x`
is appended once even though the subprocess times out. -/
theorem c3_witness :
    processOneCommand "ls".toList true .no .yes .timedOut [] = .ok ([], none) ∧
    execute_command "rm x".toList false .no .timedOut [] =
      .ok ([], (false, [], USER_CANCELLED_MSG)) ∧
    execute_command "rm x".toList false .yes .timedOut [] =
      .ok (["rm x".toList], outcomeTriple .timedOut) :=
  ⟨(c3_denied_vs_approved_history "ls".toList "rm x".toList .no .yes .yes
      .timedOut [] false).1 (by decide),
   (c3_denied_vs_approved_history "ls".toList "rm x".toList .no .yes .yes
      .timedOut [] false).2.1 (by decide),
   (c3_denied_vs_approved_history "ls".toList "rm x".toList .no .yes .yes
      .timedOut [] false).2.2 (Or.inr (Or.inr rfl))⟩

/-- C4: the claim is right about the hinted-mode prompt
(`get_confirmation` maps interrupt and end-of-input to a refusal) but the
code is wrong about the local-classification prompt: `Confirm.ask` at
`command_executor.py` line 93 has no interrupt handler, so
`KeyboardInterrupt`/`EOFError` raised during it escape
`execute_command` instead of resolving to a denial. -/
theorem c4_local_prompt_interrupt_escapes :
    execute_command "rm -rf /".toList false .interrupt .timedOut [] =
      .raised .keyboardInterrupt ∧
    execute_command "rm -rf /".toList false .eof .timedOut [] =
      .raised .eofError ∧
    get_confirmation .interrupt = false ∧
    get_confirmation .eof = false := by decide

/-- C5: for every approved command `execute_command` returns a result
triple — never a propagating exception: on timeout the triple is
`(false, "", msg)` with `msg` naming the configured 30-second limit, and
on any other execution error it is `(false, "", descriptive reason)`. -/
theorem c5_execute_total_on_approved (cmd : List Char) (aa : Bool)
    (ans : ConfirmAnswer) (out : ExecOutcome) (hist : List (List Char))
    (happr : aa = true ∨ is_sensitive_command cmd = false ∨ ans = ConfirmAnswer.yes) :
    (∃ r, execute_command cmd aa ans out hist = .ok (hist ++ [cmd], r)) ∧
    (out = .timedOut →
      execute_command cmd aa ans out hist =
        .ok (hist ++ [cmd], (false, [], timeoutMessage)) ∧
      (toString COMMAND_TIMEOUT).toList <:+: timeoutMessage) ∧
    (∀ m, out = .raisedExc m →
      execute_command cmd aa ans out hist =
        .ok (hist ++ [cmd], (false, [], execErrorMessage m))) := by
  refine ⟨⟨outcomeTriple out, execute_command_approved cmd aa ans out hist happr⟩,
    fun hout => ⟨?_, by decide⟩, fun m hout => ?_⟩
  · rw [hout] at *
    exact execute_command_approved cmd aa ans .timedOut hist happr
  · rw [hout] at *
    exact execute_command_approved cmd aa ans (.raisedExc m) hist happr

/-- C5 witness: the approved command `ls` on a timeout yields the timeout
triple, whose message names the 30-second limit, and on a launch failure
yields the descriptive failure triple. -/
theorem c5_witness :
    (∃ r, execute_command "ls".toList true .no .timedOut [] = .ok (["ls".toList], r)) ∧
    (execute_command "ls".toList true .no .timedOut [] =
        .ok (["ls".toList], (false, [], timeoutMessage)) ∧
      (toString COMMAND_TIMEOUT).toList <:+: timeoutMessage) :=
  ⟨(c5_execute_total_on_approved "ls".toList true .no .timedOut [] (Or.inl rfl)).1,
   (c5_execute_total_on_approved "ls".toList true .no .timedOut [] (Or.inl rfl)).2.1 rfl⟩

/-- C6: an approved command whose subprocess completes normally yields
`succeeded = (exit code == 0)` with the captured stdout and stderr
returned unchanged, whatever the exit code. -/
theorem c6_normal_completion (cmd : List Char) (aa : Bool)
    (ans : ConfirmAnswer) (rc : Int) (stdout stderr : List Char)
    (hist : List (List Char))
    (happr : aa = true ∨ is_sensitive_command cmd = false ∨ ans = ConfirmAnswer.yes) :
    execute_command cmd aa ans (.completed rc stdout stderr) hist =
      .ok (hist ++ [cmd], (rc == 0, stdout, stderr)) ∧
    ((rc == 0) = true ↔ rc = 0) :=
  ⟨execute_command_approved cmd aa ans (.completed rc stdout stderr) hist happr,
   by simp⟩

/-- C6 witness: a completed run with exit code 2 is reported as not
succeeded, with its output captured. -/
theorem c6_witness :
    execute_command "ls".toList true .no
        (.completed 2 "out".toList "err".toList) [] =
      .ok (["ls".toList], ((2 : Int) == 0, "out".toList, "err".toList)) ∧
    (((2 : Int) == 0) = true ↔ (2 : Int) = 0) :=
  c6_normal_completion "ls".toList true .no 2 "out".toList "err".toList []
    (Or.inl rfl)

/-- C7 counterexample: the code's marker test is
`startswith("NEEDS_APPROVAL:")` with no trailing space, so the response
`NEEDS_APPROVAL:ls` — which does not carry the claimed marker
`"NEEDS_APPROVAL: "` — is still flagged as needing approval, refuting
"absence of the marker signals local classification" for the
space-suffixed marker. -/
theorem c7_counterexample_marker_without_space :
    processAIResponse "NEEDS_APPROVAL:ls".toList = ("ls".toList, true) ∧
    "NEEDS_APPROVAL: ".toList.isPrefixOf "NEEDS_APPROVAL:ls".toList = false := by
  decide

/-- C7 amended: the case-sensitive marker prefix is `NEEDS_APPROVAL:`
(no trailing space): a response is flagged as needing approval exactly
when it starts with that token, and when it is flagged (and the user
confirms) the command that reaches the execution engine — the text
appended to the history and run — is the response with every scanned
marker occurrence removed and whitespace stripped. -/
theorem c7_amended_marker_protocol (r : List Char)
    (hintAns localAns : ConfirmAnswer) (out : ExecOutcome)
    (hist : List (List Char)) :
    ((processAIResponse r).2 = true ↔ NEEDS_APPROVAL_MARKER.isPrefixOf r = true) ∧
    (NEEDS_APPROVAL_MARKER.isPrefixOf r = true →
      get_confirmation hintAns = true →
      pipelineStep r hintAns localAns out hist =
        .ok (hist ++ [pyStrip (removeMarker r)], some (outcomeTriple out))) := by
  constructor
  · unfold processAIResponse
    by_cases h : NEEDS_APPROVAL_MARKER.isPrefixOf r = true <;> simp [h]
  · intro hpre hconf
    unfold pipelineStep processAIResponse
    simp [hpre, processOneCommand, hconf, execute_command, runSubprocess]

/-- C7 amended, witness: the marked response `NEEDS_APPROVAL: rm x` is
flagged, and after confirmation the engine receives its marker-stripped
text. -/
theorem c7_amended_witness :
    ((processAIResponse "NEEDS_APPROVAL: rm x".toList).2 = true ↔
      NEEDS_APPROVAL_MARKER.isPrefixOf "NEEDS_APPROVAL: rm x".toList = true) ∧
    pipelineStep "NEEDS_APPROVAL: rm x".toList .yes .no (.completed 0 [] []) [] =
      .ok ([pyStrip (removeMarker "NEEDS_APPROVAL: rm x".toList)],
        some (outcomeTriple (.completed 0 [] []))) :=
  ⟨(c7_amended_marker_protocol "NEEDS_APPROVAL: rm x".toList .yes .no
      (.completed 0 [] []) []).1,
   (c7_amended_marker_protocol "NEEDS_APPROVAL: rm x".toList .yes .no
      (.completed 0 [] []) []).2 (by decide) (by decide)⟩

/-- C8 counterexample: after one approved execution of `ls`, the
session's `clear` action (which calls `ai_agent.clear_history`) leaves
the command history holding that entry — `clearHistory` followed by
`getHistory` does not return an empty sequence. -/
theorem c8_counterexample_clear_keeps_command_history :
    get_command_history
        (mainClearBranch
          ⟨[("user".toList, "list files".toList)],
           (runSubprocess "ls".toList (.completed 0 [] []) []).1⟩).command_history =
      ["ls".toList] ∧
    (["ls".toList] : List (List Char)) ≠ [] := by decide

/-- C8 amended: `get_command_history` returns the history's current
value — after N approved executions, exactly the N commands in
invocation order — but the session's `clear` action resets only the AI
conversation history and leaves the command history unchanged; no
operation clears the command history. -/
theorem c8_amended_history_semantics
    (entries : List (List Char × ExecOutcome)) (s : AppState) :
    get_command_history (runApproved entries []) = entries.map Prod.fst ∧
    (runApproved entries []).length = entries.length ∧
    (mainClearBranch s).command_history = s.command_history ∧
    (mainClearBranch s).conversation_history = [] :=
  ⟨by simp [get_command_history, runApproved_history],
   by simp [runApproved_history],
   rfl, rfl⟩

/-- C10: denying a locally classified sensitive command makes
`execute_command` return exactly `(False, "", "User cancelled command
execution")` — the same result shape as an execution failure,
distinguished only by the fixed stderr text. -/
theorem c10_denied_result_tuple (cmd : List Char) (out : ExecOutcome)
    (hist : List (List Char)) (hs : is_sensitive_command cmd = true) :
    execute_command cmd false .no out hist =
      .ok (hist, (false, [], "User cancelled command execution".toList)) :=
  execute_command_denied cmd out hist hs

/-- C10 witness: denying `sudo reboot` yields exactly the fixed denial
triple. -/
theorem c10_witness :
    execute_command "sudo reboot".toList false .no .timedOut [] =
      .ok ([], (false, [], "User cancelled command execution".toList)) :=
  c10_denied_result_tuple "sudo reboot".toList .timedOut [] (by decide)

end SimpleCmd
